import Mathlib

/-!
# Verification of the load-balancer core

A shallow embedding, in Lean 4, of the load-balancing engine of the
`load-balancer` repository: the backend registry (`BackendManager`), the
round-robin routing policy (`RoundRobinPolicy`), the request router and the
request-forwarding handler, the health-probe classifier
(`HealthChecker::check_backend_health`), and the response-body augmentation
step (`ResponseInjector`).

Conventions of the embedding:
* machine integers (`size_t`, `uint16_t`) are modelled as `Nat`, with an
  explicit `% 2 ^ 64` wherever the C++ code can wrap (the atomic round-robin
  counter);
* the mutable registry (`std::vector<BackendServer>` behind a
  `std::shared_mutex`) is modelled as a `List BackendServer` passed and
  returned explicitly; the atomic counter of the policy is a `Nat` passed and
  returned explicitly;
* `std::expected<T, std::string>` is modelled as `Except String T`;
* external collaborators (the HTTP library used by probes and forwarding, the
  nlohmann JSON parser, `std::chrono` clocks) are modelled as explicit inputs:
  a probe outcome, a parse result, a timestamp.
-/

namespace LB

/-- `2 ^ 64`: one past the largest `size_t` value; the atomic round-robin
counter wraps at this modulus. -/
def USIZE : Nat := 2 ^ 64

/-- `struct BackendServer` (backend_manager.hpp): host, port, health-check
endpoint, an atomic health flag (initialised `true` at construction), and a
last-check timestamp (`std::chrono::steady_clock::time_point`, modelled as a
`Nat` tick count). -/
structure BackendServer where
  host : String
  port : Nat
  health_endpoint : String
  is_healthy : Bool
  last_check : Nat
deriving Repr, DecidableEq

/-- The constructor of `BackendServer`: health flag starts `true` (optimistic
default); `now` stands for the `steady_clock::now()` call. -/
def BackendServer.mkInitial (h : String) (p : Nat) (ep : String) (now : Nat) :
    BackendServer :=
  { host := h, port := p, health_endpoint := ep, is_healthy := true,
    last_check := now }

namespace BackendManager

/-- `BackendManager::get_all_backends` (backend_manager.cpp:14-22): under a
shared lock, return a handle to every backend, in storage order. -/
def get_all_backends (backends : List BackendServer) : List BackendServer :=
  backends

/-- `BackendManager::get_healthy_backends` (backend_manager.cpp:24-33): under
a shared lock, walk the backends in storage order and keep exactly those whose
`is_healthy` flag is set. -/
def get_healthy_backends (backends : List BackendServer) : List BackendServer :=
  backends.filter (fun b => b.is_healthy)

/-- `BackendManager::update_health` (backend_manager.cpp:35-41): under a
unique lock, if `index` is in range, store the new health flag and stamp
`last_check` with the current time (`now` models `steady_clock::now()`);
out-of-range indices do nothing. -/
def update_health (backends : List BackendServer) (index : Nat)
    (h : Bool) (now : Nat) : List BackendServer :=
  match backends[index]? with
  | some b =>
      backends.set index { b with is_healthy := h, last_check := now }
  | none => backends

/-- `BackendManager::backend_count` (backend_manager.cpp:43-46). -/
def backend_count (backends : List BackendServer) : Nat :=
  backends.length

end BackendManager

namespace RoundRobinPolicy

/-- `RoundRobinPolicy::select` (routing_policy.hpp:22-30). The state is the
atomic `size_t` counter. On an empty candidate list, return the typed error
without touching the counter. Otherwise `counter_.fetch_add(1)` returns the
value held *before* the increment and stores that value plus one (wrapping at
`2 ^ 64`); the fetched value modulo the candidate count indexes the list.
The reachable counter states are `< USIZE`; the `% USIZE` on the fetched
value makes the model total on all of `Nat`. -/
def select (counter : Nat) (backends : List BackendServer) :
    Except String BackendServer × Nat :=
  if h : backends.isEmpty then
    (Except.error "No healthy backends available", counter)
  else
    have hlen : 0 < backends.length := by
      cases backends with
      | nil => simp [List.isEmpty] at h
      | cons a l => exact Nat.succ_pos _
    let cur := counter % USIZE
    (Except.ok (backends.get ⟨cur % backends.length, Nat.mod_lt _ hlen⟩),
     (cur + 1) % USIZE)

/-- `RoundRobinPolicy::reset` (routing_policy.hpp:32-34): store zero. -/
def reset (_counter : Nat) : Nat := 0

/-- Iterate `select` on a fixed candidate list, collecting the results of the
consecutive calls. -/
def selectSeq (counter : Nat) (backends : List BackendServer) :
    Nat → List (Except String BackendServer)
  | 0 => []
  | n + 1 =>
      let r := select counter backends
      r.1 :: selectSeq r.2 backends n

end RoundRobinPolicy

/-- The port of a successful selection (`0` for the error case); used to state
the round-robin sequence properties over ports. -/
def resultPort (r : Except String BackendServer) : Nat :=
  match r with
  | Except.ok b => b.port
  | Except.error _ => 0

namespace RequestRouter

/-- `RequestRouter::select_backend` (request_router.hpp): take the healthy
snapshot; if it is empty return the typed error, otherwise delegate to the
round-robin policy. The policy counter is threaded through explicitly. -/
def select_backend (backends : List BackendServer) (counter : Nat) :
    Except String BackendServer × Nat :=
  let healthy_backends := BackendManager.get_healthy_backends backends
  if healthy_backends.isEmpty then
    (Except.error "No healthy backends available", counter)
  else
    RoundRobinPolicy.select counter healthy_backends

end RequestRouter

/-- The observable first step of the request handler lambda in `main.cpp`
(lines 66-137): either it rejects the request immediately with a status and a
response body — opening no connection to any backend — or it commits to
opening a connection to the selected backend (everything after that point
depends on the network collaborator). -/
inductive ForwardStep where
  | reject (status : Nat) (body : String) (content_type : String)
  | connect (backend : BackendServer)
deriving Repr, DecidableEq

/-- The `server.Get` handler of `main.cpp` up to the point where a backend
connection is opened: call `select_backend`; on error answer `503` with the
fixed JSON body (`R"({"error": "No healthy backends available"})"`, which
contains a space after the colon) and return without contacting any backend;
on success proceed to connect to the chosen backend. -/
def handle_request (backends : List BackendServer) (counter : Nat) :
    ForwardStep × Nat :=
  match RequestRouter.select_backend backends counter with
  | (Except.error _, c) =>
      (ForwardStep.reject 503 "\x7b\"error\": \"No healthy backends available\"\x7d"
        "application/json", c)
  | (Except.ok b, c) => (ForwardStep.connect b, c)

/-- The outcome of one health probe, as seen inside
`HealthChecker::check_backend_health` (main.cpp:448-467): the HTTP
collaborator either yields a response with some status, or yields no response
(connection failure or timeout — `httplib` returns a null result for both), or
throws (modelled by `exn`, which the `catch` clause turns into `false`). -/
inductive ProbeResult where
  | response (status : Nat)
  | connectionFailure
  | timeout
  | exn
deriving Repr, DecidableEq

/-- `HealthChecker::check_backend_health` (main.cpp:448-467): healthy exactly
when a response arrived and its status is `200` (`res && res->status == 200`);
a missing response (connection failure or timeout) and a caught exception both
yield `false`. Total: no probe outcome propagates an error to the caller. -/
def check_backend_health (r : ProbeResult) : Bool :=
  match r with
  | ProbeResult.response status => status == 200
  | ProbeResult.connectionFailure => false
  | ProbeResult.timeout => false
  | ProbeResult.exn => false

/-- Index of the first occurrence of `pat` as a contiguous sublist of `s`
(`none` when there is no occurrence). This is the search that
`std::regex_search` with a literal pattern, and `std::string::find`, perform;
the body strings handled by the injector are treated character-wise. -/
def firstOccurrence (pat : List Char) : List Char → Option Nat
  | [] => if pat.isPrefixOf ([] : List Char) then some 0 else none
  | c :: rest =>
      if pat.isPrefixOf (c :: rest) then some 0
      else (firstOccurrence pat rest).map (· + 1)

/-- `haystack.find(needle) != std::string::npos`: substring containment. -/
def containsStr (haystack needle : String) : Bool :=
  (firstOccurrence needle.data haystack.data).isSome

namespace ResponseInjector

/-- `ResponseInjector::get_content_type_main` (response_injector.cpp): keep
the part of the content type before the first `;` and lower-case it
(byte-wise `::tolower`, i.e. ASCII lowering). -/
def get_content_type_main (content_type : String) : String :=
  let main_type := String.mk (content_type.data.takeWhile (fun c => c ≠ ';'))
  String.mk (main_type.data.map Char.toLower)

/-- The identifying HTML comment
`fmt::format("<!-- Served by backend server on port {} -->", backend_port)`. -/
def htmlComment (backend_port : Nat) : String :=
  "<!-- Served by backend server on port " ++ toString backend_port ++ " -->"

/-- The closing body tag searched for, in lower case. Searching the lowered
body for this lowered pattern is exactly the case-insensitive
`std::regex_search` of the source (the pattern is pure ASCII). -/
def closingBodyTag : List Char := "</body>".data

/-- The lowered character sequence of a body, in which the closing tag is
searched case-insensitively. -/
def lowerData (s : String) : List Char :=
  s.data.map Char.toLower

/-- `ResponseInjector::inject_html` (response_injector.cpp): find the first
case-insensitive `</body>`; when found, insert the identifying comment plus a
newline at that position; otherwise append a newline plus the comment. -/
def inject_html (body : String) (backend_port : Nat) : String :=
  match firstOccurrence closingBodyTag (lowerData body) with
  | some pos =>
      String.mk (body.data.take pos ++ (htmlComment backend_port ++ "\n").data
        ++ body.data.drop pos)
  | none => body ++ "\n" ++ htmlComment backend_port

/-- `ResponseInjector::inject_text` (response_injector.cpp): append the
plain-text trailer line. -/
def inject_text (body : String) (backend_port : Nat) : String :=
  body ++ "\n[Served by backend server on port " ++ toString backend_port ++ "]"

end ResponseInjector

/-- The nlohmann JSON value model. Object fields are kept sorted by key
(the default nlohmann object storage is a `std::map` ordered by `std::less`,
i.e. lexicographic byte order), which is also the order `dump()` emits. -/
inductive Json where
  | obj (fields : List (String × Json))
  | arr (elems : List Json)
  | str (s : String)
  | num (n : Int)
  | bool (b : Bool)
  | null
deriving Repr

/-- Lexicographic comparison of character sequences by code point: the
`std::less<std::string>` byte order that the nlohmann `std::map` object
storage sorts by (code-point order and byte order agree on the ASCII keys
involved here). -/
def charListLt : List Char → List Char → Bool
  | [], [] => false
  | [], _ :: _ => true
  | _ :: _, [] => false
  | a :: as, b :: bs =>
      if a.val < b.val then true
      else if b.val < a.val then false
      else charListLt as bs

/-- `std::less` on keys, as `std::map` orders an nlohmann object. -/
def strLt (a b : String) : Bool :=
  charListLt a.data b.data

/-- `j[k] = v` on a (sorted-by-key) nlohmann object: replace the value when
the key is present, otherwise insert the new pair at its sorted position. -/
def objAssign (fields : List (String × Json)) (k : String) (v : Json) :
    List (String × Json) :=
  match fields with
  | [] => [(k, v)]
  | (k0, v0) :: rest =>
      if k = k0 then (k, v) :: rest
      else if strLt k k0 then (k, v) :: (k0, v0) :: rest
      else (k0, v0) :: objAssign rest k v

/-- Escape one character for nlohmann `dump()` output. -/
def escapeChar (c : Char) : String :=
  if c = '"' then "\\\""
  else if c = '\\' then "\\\\"
  else if c = '\x08' then "\\b"
  else if c = '\x0c' then "\\f"
  else if c = '\n' then "\\n"
  else if c = '\x0d' then "\\r"
  else if c = '\t' then "\\t"
  else String.singleton c

/-- Serialize a JSON string literal as nlohmann `dump()` does. -/
def dumpStr (s : String) : String :=
  "\"" ++ String.join (s.data.map escapeChar) ++ "\""

mutual

/-- nlohmann `j.dump()` with default arguments: most compact form, no spaces,
object fields in stored (sorted) order. -/
def dumpJson : Json → String
  | Json.obj fields => "\x7b" ++ dumpFields fields ++ "\x7d"
  | Json.arr elems => "[" ++ dumpElems elems ++ "]"
  | Json.str s => dumpStr s
  | Json.num n => toString n
  | Json.bool b => if b then "true" else "false"
  | Json.null => "null"

/-- Comma-separated `"key":value` pairs of an object body. -/
def dumpFields : List (String × Json) → String
  | [] => ""
  | [(k, v)] => dumpStr k ++ ":" ++ dumpJson v
  | (k, v) :: kv :: rest =>
      dumpStr k ++ ":" ++ dumpJson v ++ "," ++ dumpFields (kv :: rest)

/-- Comma-separated elements of an array body. -/
def dumpElems : List Json → String
  | [] => ""
  | [v] => dumpJson v
  | v :: w :: rest => dumpJson v ++ "," ++ dumpElems (w :: rest)

end

namespace ResponseInjector

/-- The identifying value `fmt::format("backend-{}", backend_port)`. -/
def serverValue (backend_port : Nat) : String :=
  "backend-" ++ toString backend_port

/-- The mutation `inject_json` performs on a successfully parsed value
(response_injector.cpp): on an object root, `j["_server"] = "backend-XXXX"`;
on any other root, wrap it as `{"data": j, "_server": "backend-XXXX"}`
(two assignments into a fresh object). -/
def addServerField (j : Json) (backend_port : Nat) : Json :=
  match j with
  | Json.obj fields =>
      Json.obj (objAssign fields "_server" (Json.str (serverValue backend_port)))
  | _ =>
      Json.obj (objAssign (objAssign [] "data" j) "_server"
        (Json.str (serverValue backend_port)))

/-- `ResponseInjector::inject_json` (response_injector.cpp). The call
`json::parse(body)` belongs to the external nlohmann collaborator; its outcome
is the explicit input `parsed`: `none` models a parse failure (the thrown
`json::exception` is caught and the body falls through to `inject_text`),
`some j` models a successful parse of `body` yielding the value `j`. -/
def inject_json (parsed : Option Json) (body : String) (backend_port : Nat) :
    String :=
  match parsed with
  | some j => dumpJson (addServerField j backend_port)
  | none => inject_text body backend_port

/-- `ResponseInjector::inject` (response_injector.cpp): bucket the lowered
main content type by substring containment, testing `html`, then `json`, then
`text`; anything else returns the body unchanged. `parsed` is the nlohmann
parse oracle threaded to `inject_json` (the source parses inside that
branch only). -/
def inject (parsed : Option Json) (body : String) (content_type : String)
    (backend_port : Nat) : String :=
  let main_type := get_content_type_main content_type
  if containsStr main_type "html" then inject_html body backend_port
  else if containsStr main_type "json" then inject_json parsed body backend_port
  else if containsStr main_type "text" then inject_text body backend_port
  else body

end ResponseInjector

/-- A healthy demonstration backend, as registered from the shipped
`config.json` (host `localhost`, health endpoint `/health`). -/
def demoBackend (p : Nat) : BackendServer :=
  { host := "localhost", port := p, health_endpoint := "/health",
    is_healthy := true, last_check := 0 }

/-- A demonstration backend whose health flag has been cleared. -/
def demoUnhealthy (p : Nat) : BackendServer :=
  { host := "localhost", port := p, health_endpoint := "/health",
    is_healthy := false, last_check := 0 }

/-- Three healthy backends at ports 8080, 8081, 8082, in registration
order. -/
def demoBackends3 : List BackendServer :=
  [demoBackend 8080, demoBackend 8081, demoBackend 8082]

/-- A registry in which every health flag is false. -/
def demoAllUnhealthy : List BackendServer :=
  [demoUnhealthy 8080, demoUnhealthy 8081]

/-! ## Supporting lemmas -/

theorem firstOccurrence_some_le {pat s : List Char} {pos : Nat}
    (h : firstOccurrence pat s = some pos) : pos ≤ s.length := by
  induction s generalizing pos with
  | nil =>
      simp only [firstOccurrence] at h
      split at h
      · cases h; exact Nat.le_refl _
      · exact absurd h (by simp)
  | cons c rest ih =>
      simp only [firstOccurrence] at h
      split at h
      · cases h; exact Nat.zero_le _
      · rcases Option.map_eq_some'.mp h with ⟨p, hp, rfl⟩
        simpa [Nat.succ_le_succ_iff] using ih hp

theorem firstOccurrence_some_isPrefixOf {pat s : List Char} {pos : Nat}
    (h : firstOccurrence pat s = some pos) :
    pat.isPrefixOf (s.drop pos) = true := by
  induction s generalizing pos with
  | nil =>
      simp only [firstOccurrence] at h
      split at h
      · cases h; assumption
      · exact absurd h (by simp)
  | cons c rest ih =>
      simp only [firstOccurrence] at h
      split at h
      · cases h; assumption
      · rcases Option.map_eq_some'.mp h with ⟨p, hp, rfl⟩
        simpa using ih hp

theorem firstOccurrence_some_minimal {pat s : List Char} {pos : Nat}
    (h : firstOccurrence pat s = some pos) :
    ∀ q, q < pos → pat.isPrefixOf (s.drop q) = false := by
  induction s generalizing pos with
  | nil =>
      simp only [firstOccurrence] at h
      split at h
      · cases h; intro q hq; exact absurd hq (Nat.not_lt_zero _)
      · exact absurd h (by simp)
  | cons c rest ih =>
      simp only [firstOccurrence] at h
      split at h
      · cases h; intro q hq; exact absurd hq (Nat.not_lt_zero _)
      · rcases Option.map_eq_some'.mp h with ⟨p, hp, rfl⟩
        intro q hq
        cases q with
        | zero =>
            simp only [List.drop_zero]
            exact Bool.eq_false_iff.mpr (by assumption)
        | succ q0 =>
            simpa using ih hp q0 (Nat.lt_of_succ_lt_succ hq)

theorem firstOccurrence_none {pat s : List Char}
    (h : firstOccurrence pat s = none) :
    ∀ q, pat.isPrefixOf (s.drop q) = false := by
  induction s with
  | nil =>
      simp only [firstOccurrence] at h
      split at h
      · exact absurd h (by simp)
      · intro q; simp only [List.drop_nil]; exact Bool.eq_false_iff.mpr (by assumption)
  | cons c rest ih =>
      simp only [firstOccurrence] at h
      split at h
      · exact absurd h (by simp)
      · intro q
        cases q with
        | zero =>
            simp only [List.drop_zero]
            exact Bool.eq_false_iff.mpr (by assumption)
        | succ q0 =>
            simp only [List.drop_succ_cons]
            exact ih (by simpa using h) q0

theorem objAssign_wrap (j v : Json) :
    objAssign (objAssign ([] : List (String × Json)) "data" j) "_server" v
      = [("_server", v), ("data", j)] := by
  show objAssign [("data", j)] "_server" v = _
  simp only [objAssign]
  rw [if_neg (by decide), if_pos (by decide)]

theorem objAssign_self_mem (fields : List (String × Json)) (k : String)
    (v : Json) : (k, v) ∈ objAssign fields k v := by
  induction fields with
  | nil => simp [objAssign]
  | cons kv rest ih =>
      rcases kv with ⟨k0, v0⟩
      simp only [objAssign]
      split
      · exact List.mem_cons_self _ _
      · split
        · exact List.mem_cons_self _ _
        · exact List.mem_cons_of_mem _ ih

theorem objAssign_mem_of_mem {fields : List (String × Json)}
    {k0 : String} {v0 : Json} (k : String) (v : Json)
    (hmem : (k0, v0) ∈ fields) (hne : k0 ≠ k) :
    (k0, v0) ∈ objAssign fields k v := by
  induction fields with
  | nil => cases hmem
  | cons kv rest ih =>
      rcases kv with ⟨k1, v1⟩
      rcases List.mem_cons.mp hmem with heq | htail
      · simp only [objAssign]
        split
        · rename_i hk
          subst hk
          cases heq
          exact absurd rfl hne
        · split
          · exact List.mem_cons_of_mem _ (heq ▸ List.mem_cons_self _ _)
          · exact heq ▸ List.mem_cons_self _ _
      · simp only [objAssign]
        split
        · exact List.mem_cons_of_mem _ htail
        · split
          · exact List.mem_cons_of_mem _ (List.mem_cons_of_mem _ htail)
          · exact List.mem_cons_of_mem _ (ih htail)

/-! ## Claims -/

/-- Claim C1, as stated, is false: `counter_.fetch_add(1)` returns the value
held *before* the increment, and that pre-increment value indexes the
candidates. Concretely, with the counter at `0` and two distinct candidates,
the claim predicts the candidate at position `(0 + 1) % 2 = 1` (port 8081),
but `select` returns the candidate at position `0` (port 8080). -/
theorem C1_counterexample :
    (RoundRobinPolicy.select 0 [demoBackend 8080, demoBackend 8081]).1
      = Except.ok (demoBackend 8080) ∧
    [demoBackend 8080, demoBackend 8081][(0 + 1) % 2]?
      = some (demoBackend 8081) ∧
    Except.ok (demoBackend 8080)
      ≠ (Except.ok (demoBackend 8081) : Except String BackendServer) := by
  refine ⟨rfl, rfl, ?_⟩
  intro h
  have hb : demoBackend 8080 = demoBackend 8081 := by injection h
  exact absurd (congrArg BackendServer.port hb) (by decide)

/-- Claim C1 (amended): for every non-empty candidate list,
`RoundRobinPolicy::select` atomically fetch-and-increments the shared counter
and returns the candidate at position `counter mod len(candidates)` where the
counter value used for the modulo is the value *before* the increment (the
value `fetch_add` returns); the stored counter becomes that value plus one,
wrapping at `2 ^ 64`. -/
theorem C1_select_indexes_by_preincrement_counter (s : Nat)
    (l : List BackendServer) (hs : s < USIZE) (hl : l ≠ []) :
    (RoundRobinPolicy.select s l).2 = (s + 1) % USIZE ∧
    (RoundRobinPolicy.select s l).1
      = (l[s % l.length]?.elim (Except.error "No healthy backends available")
          Except.ok) := by
  have hne : l.isEmpty = false := by
    cases l with
    | nil => exact absurd rfl hl
    | cons a t => rfl
  have hlen : 0 < l.length := List.length_pos.mpr hl
  have hcur : s % USIZE = s := Nat.mod_eq_of_lt hs
  constructor
  · simp [RoundRobinPolicy.select, hne, hcur]
  · simp [RoundRobinPolicy.select, hne, hcur,
      List.getElem?_eq_getElem (Nat.mod_lt _ hlen)]

/-- Witness for the amended claim C1: counter 5 on three candidates selects
the candidate at index `5 % 3 = 2` and stores `6`. -/
theorem C1_select_indexes_by_preincrement_counter_witness :
    (RoundRobinPolicy.select 5 demoBackends3).2 = (5 + 1) % USIZE ∧
    (RoundRobinPolicy.select 5 demoBackends3).1
      = (demoBackends3[5 % demoBackends3.length]?.elim
          (Except.error "No healthy backends available") Except.ok) :=
  C1_select_indexes_by_preincrement_counter 5 demoBackends3
    (by norm_num [USIZE]) (by decide)

/-- Claim C2: starting from a reset counter, consecutive `select` calls on
the fixed list of three backends at ports 8080, 8081, 8082 return the ports
`8080,8081,8082` cyclically for nine calls; and in general, the first
`select` after `reset` on any non-empty candidate list returns its first
element. -/
theorem C2_round_robin_cycle_from_reset :
    (∀ s0 : Nat,
      (RoundRobinPolicy.selectSeq (RoundRobinPolicy.reset s0)
          demoBackends3 9).map resultPort
        = [8080, 8081, 8082, 8080, 8081, 8082, 8080, 8081, 8082]) ∧
    ∀ (l : List BackendServer) (s0 : Nat) (hl : l ≠ []),
      (RoundRobinPolicy.select (RoundRobinPolicy.reset s0) l).1
        = Except.ok (l.head hl) := by
  constructor
  · intro s0
    show (RoundRobinPolicy.selectSeq 0 demoBackends3 9).map resultPort = _
    decide
  · intro l s0 hl
    cases l with
    | nil => exact absurd rfl hl
    | cons a t =>
        show (RoundRobinPolicy.select 0 (a :: t)).1 = Except.ok a
        rfl

/-- Witness for claim C2: applying the general half at a concrete list and
counter state. -/
theorem C2_round_robin_cycle_from_reset_witness :
    (RoundRobinPolicy.select (RoundRobinPolicy.reset 42) demoBackends3).1
      = Except.ok (demoBackends3.head (by decide)) :=
  C2_round_robin_cycle_from_reset.2 demoBackends3 42 (by decide)

/-- Claim C3, as stated, is false on the 2xx point: the probe classifies a
response as healthy only when its status is exactly `200`
(`res && res->status == 200`); status `201` is a 2xx status, yet
`check_backend_health` classifies it as unhealthy. -/
theorem C3_counterexample :
    check_backend_health (ProbeResult.response 201) = false ∧
    200 ≤ 201 ∧ 201 < 300 := by
  decide

/-- Claim C3 (amended): the health probe classifies an outcome as healthy
exactly when a response arrived with status exactly `200`; every other
outcome — any other status (2xx included), a connection failure, a timeout,
and a caught exception — is classified unhealthy. `check_backend_health` is a
total function on probe outcomes: probe exceptions are caught and mapped to
unhealthy, so no probe outcome propagates an error into the health-check
loop. -/
theorem C3_probe_healthy_iff_status_200 (r : ProbeResult) :
    check_backend_health r = true ↔ r = ProbeResult.response 200 := by
  cases r with
  | response status => simp [check_backend_health]
  | connectionFailure => simp [check_backend_health]
  | timeout => simp [check_backend_health]
  | exn => simp [check_backend_health]

/-- Claim C5: `select` on an empty candidate list returns the typed error
with message exactly `No healthy backends available` and leaves the counter
untouched, so any subsequent `select` behaves exactly as if the failed call
had never happened. -/
theorem C5_empty_select_error_without_mutation (s : Nat) :
    RoundRobinPolicy.select s []
      = (Except.error "No healthy backends available", s) ∧
    ∀ l : List BackendServer,
      RoundRobinPolicy.select (RoundRobinPolicy.select s ([] : List BackendServer)).2 l
        = RoundRobinPolicy.select s l := by
  exact ⟨rfl, fun l => rfl⟩

/-- Claim C4, as stated, is false only on the exact bytes of the body: with
every backend unhealthy the handler does reject with status 503 and does not
connect, but the body the code sends
(`R"({"error": "No healthy backends available"})"`) carries a space after the
colon, while the claim writes the body without that space. -/
theorem C4_counterexample :
    handle_request demoAllUnhealthy 0
      = (ForwardStep.reject 503
          "\x7b\"error\": \"No healthy backends available\"\x7d"
          "application/json", 0) ∧
    "\x7b\"error\": \"No healthy backends available\"\x7d"
      ≠ "\x7b\"error\":\"No healthy backends available\"\x7d" := by
  decide

/-- Claim C4 (amended): if every registered health flag is false, forwarding
any inbound request rejects it with status 503, content type
`application/json` and body `{"error": "No healthy backends available"}`
(one space after the colon, as the source writes it), no connection to any
backend is attempted (the handler takes the `reject` step, never the
`connect` step), and the policy counter is left untouched. -/
theorem C4_all_unhealthy_rejects_503 (m : List BackendServer) (c : Nat)
    (h : ∀ b ∈ m, b.is_healthy = false) :
    handle_request m c
      = (ForwardStep.reject 503
          "\x7b\"error\": \"No healthy backends available\"\x7d"
          "application/json", c) := by
  have hemp : BackendManager.get_healthy_backends m = [] := by
    simp only [BackendManager.get_healthy_backends, List.filter_eq_nil_iff]
    intro b hb
    simp [h b hb]
  simp [handle_request, RequestRouter.select_backend, hemp]

/-- Witness for the amended claim C4 at a concrete all-unhealthy registry. -/
theorem C4_all_unhealthy_rejects_503_witness :
    handle_request demoAllUnhealthy 7
      = (ForwardStep.reject 503
          "\x7b\"error\": \"No healthy backends available\"\x7d"
          "application/json", 7) :=
  C4_all_unhealthy_rejects_503 demoAllUnhealthy 7 (by decide)

/-- Claim C6: `get_all_backends` returns every backend in insertion order
(it is the identity on the registry sequence), `get_healthy_backends` is the
order-preserving filter of that sequence by the health flag (a sublist, never
a reorder, containing exactly the currently healthy backends), and on the
three demo backends marking index 1 unhealthy shrinks the healthy listing to
`[8080, 8082]` in original order while marking it healthy again restores
`[8080, 8081, 8082]`. -/
theorem C6_listings_preserve_insertion_order (m : List BackendServer) :
    BackendManager.get_all_backends m = m ∧
    List.Sublist (BackendManager.get_healthy_backends m)
      (BackendManager.get_all_backends m) ∧
    (∀ b : BackendServer,
      b ∈ BackendManager.get_healthy_backends m
        ↔ b ∈ BackendManager.get_all_backends m ∧ b.is_healthy = true) ∧
    ((BackendManager.get_healthy_backends
        (BackendManager.update_health demoBackends3 1 false 5)).map
      (fun b => b.port) = [8080, 8082]) ∧
    ((BackendManager.get_healthy_backends
        (BackendManager.update_health
          (BackendManager.update_health demoBackends3 1 false 5) 1 true 9)).map
      (fun b => b.port) = [8080, 8081, 8082]) := by
  refine ⟨rfl, List.filter_sublist m, ?_, by decide, by decide⟩
  intro b
  simp [BackendManager.get_healthy_backends, BackendManager.get_all_backends,
    List.mem_filter]

/-- Claim C7: `update_health index h` with a valid index rewrites exactly the
health flag and last-check timestamp of the backend at `index` — its host,
port and health endpoint survive, every other position is untouched, and the
length is unchanged; with an out-of-range index the registry is returned
exactly as it was. -/
theorem C7_update_health_frame (m : List BackendServer) (i : Nat) (h : Bool)
    (now : Nat) :
    (i < BackendManager.backend_count m →
      (BackendManager.update_health m i h now).length = m.length ∧
      (∀ j, j ≠ i → (BackendManager.update_health m i h now)[j]? = m[j]?) ∧
      (∀ b, m[i]? = some b →
        (BackendManager.update_health m i h now)[i]?
          = some { host := b.host, port := b.port,
                   health_endpoint := b.health_endpoint,
                   is_healthy := h, last_check := now })) ∧
    (BackendManager.backend_count m ≤ i →
      BackendManager.update_health m i h now = m) := by
  constructor
  · intro hi
    have hget : m[i]? = some m[i] := List.getElem?_eq_getElem hi
    refine ⟨?_, ?_, ?_⟩
    · simp [BackendManager.update_health, hget]
    · intro j hj
      simp [BackendManager.update_health, hget,
        List.getElem?_set_ne (fun hji => hj hji.symm)]
    · intro b hb
      have hbm : b = m[i] := by
        have := hget ▸ hb
        exact (Option.some.inj this).symm
      subst hbm
      simp [BackendManager.update_health, hget,
        List.getElem?_set_eq_of_lt _ hi]
  · intro hi
    have hget : m[i]? = none := by
      simp [List.getElem?_eq_none_iff]
      exact hi
    simp [BackendManager.update_health, hget]

/-- Witness for claim C7: updating index 1 of the three demo backends flips
exactly that flag and timestamp. -/
theorem C7_update_health_frame_witness :
    (BackendManager.update_health demoBackends3 1 false 5)[1]?
      = some { host := "localhost", port := 8081, health_endpoint := "/health",
               is_healthy := false, last_check := 5 } :=
  ((C7_update_health_frame demoBackends3 1 false 5).1 (by decide)).2.2
    (demoBackend 8081) (by decide)

open ResponseInjector

/-- Claim C8: for a body whose content type is classified as markup, when the
lowered body contains the closing body tag, `inject` hands the body to
`inject_html`, which splits the body at the position of the *first*
case-insensitive occurrence of the tag (no earlier occurrence exists) and
inserts the identifying comment plus a newline exactly there, keeping every
original character: the result is the unchanged prefix, the comment line, and
the unchanged suffix beginning with the tag. When no such tag occurs anywhere
in the body, the comment is appended at the end. -/
theorem C8_markup_comment_before_first_closing_tag (parsed : Option Json)
    (body ct : String) (p : Nat)
    (hm : containsStr (get_content_type_main ct) "html" = true) :
    inject parsed body ct p = inject_html body p ∧
    (∀ pos, firstOccurrence closingBodyTag (lowerData body) = some pos →
      inject_html body p
        = String.mk (body.data.take pos ++ (htmlComment p ++ "\n").data
            ++ body.data.drop pos) ∧
      body.data.take pos ++ body.data.drop pos = body.data ∧
      closingBodyTag.isPrefixOf ((lowerData body).drop pos) = true ∧
      (∀ q, q < pos →
        closingBodyTag.isPrefixOf ((lowerData body).drop q) = false)) ∧
    (firstOccurrence closingBodyTag (lowerData body) = none →
      inject_html body p = body ++ "\n" ++ htmlComment p ∧
      ∀ q, closingBodyTag.isPrefixOf ((lowerData body).drop q) = false) := by
  refine ⟨by simp [inject, hm], ?_, ?_⟩
  · intro pos hpos
    exact ⟨by simp [inject_html, hpos], List.take_append_drop _ _,
      firstOccurrence_some_isPrefixOf hpos,
      firstOccurrence_some_minimal hpos⟩
  · intro hnone
    exact ⟨by simp [inject_html, hnone], firstOccurrence_none hnone⟩

/-- Witness for claim C8: the comment lands exactly before the `</body>` that
starts at position 8 of a concrete body. -/
theorem C8_markup_comment_before_first_closing_tag_witness :
    inject_html "<body>Hi</body>" 8080
      = String.mk ("<body>Hi</body>".data.take 8
          ++ (htmlComment 8080 ++ "\n").data
          ++ "<body>Hi</body>".data.drop 8) :=
  ((C8_markup_comment_before_first_closing_tag none "<body>Hi</body>"
      "text/html" 8080 (by decide)).2.1 8 (by decide)).1

/-- Claim C9, as stated, is false on the preservation point: on an object
root the code runs `j["_server"] = "backend-XXXX"`, which *overwrites* a
pre-existing `_server` entry, so for a body parsing to
`{"_server":"old"}` the existing value is not preserved — the result object
holds only the new `_server` value. -/
theorem C9_counterexample :
    inject_json (some (Json.obj [("_server", Json.str "old")])) "" 8080
      = "\x7b\"_server\":\"backend-8080\"\x7d" ∧
    addServerField (Json.obj [("_server", Json.str "old")]) 8080
      = Json.obj [("_server", Json.str "backend-8080")] ∧
    Json.str "old" ≠ Json.str "backend-8080" := by
  refine ⟨by decide, rfl, ?_⟩
  intro hcontra
  have hs : "old" = "backend-8080" := by injection hcontra
  exact absurd hs (by decide)

/-- Claim C9 (amended): for a body classified as structured, `inject`
delegates to `inject_json`, which works on the outcome of the external JSON
parse: on failure it appends the plain-text trailer line; on success with an
object root it sets the `_server` key to the backend identifier — the new
pair is present and every pre-existing pair whose key is not `_server` is
preserved (a pre-existing `_server` value is overwritten); on success with a
non-object root it wraps the original value under the `data` key next to the
`_server` key and re-serializes. Every case returns normally:
`inject_json` is a total function. -/
theorem C9_structured_injection (parsed : Option Json) (body ct : String)
    (p : Nat)
    (hh : containsStr (get_content_type_main ct) "html" = false)
    (hj : containsStr (get_content_type_main ct) "json" = true) :
    inject parsed body ct p = inject_json parsed body p ∧
    (parsed = none →
      inject_json parsed body p
        = body ++ "\n[Served by backend server on port " ++ toString p ++ "]") ∧
    (∀ fields, parsed = some (Json.obj fields) →
      inject_json parsed body p
        = dumpJson (Json.obj
            (objAssign fields "_server" (Json.str (serverValue p)))) ∧
      ("_server", Json.str (serverValue p))
        ∈ objAssign fields "_server" (Json.str (serverValue p)) ∧
      (∀ k v, (k, v) ∈ fields → k ≠ "_server" →
        (k, v) ∈ objAssign fields "_server" (Json.str (serverValue p)))) ∧
    (∀ j : Json, parsed = some j → (∀ fields, j ≠ Json.obj fields) →
      inject_json parsed body p
        = dumpJson (Json.obj [("_server", Json.str (serverValue p)),
            ("data", j)])) := by
  refine ⟨by simp [inject, hh, hj], ?_, ?_, ?_⟩
  · intro hnone
    subst hnone
    rfl
  · intro fields hf
    subst hf
    exact ⟨rfl, objAssign_self_mem fields _ _,
      fun k v hkv hk => objAssign_mem_of_mem _ _ hkv hk⟩
  · intro j hj2 hnotobj
    subst hj2
    cases j with
    | obj fields => exact absurd rfl (hnotobj fields)
    | arr elems => simp only [inject_json, addServerField]; rw [objAssign_wrap]
    | str s => simp only [inject_json, addServerField]; rw [objAssign_wrap]
    | num n => simp only [inject_json, addServerField]; rw [objAssign_wrap]
    | bool b => simp only [inject_json, addServerField]; rw [objAssign_wrap]
    | null => simp only [inject_json, addServerField]; rw [objAssign_wrap]

/-- Witness for the amended claim C9: injecting into the parsed object
`{"message":"Hello"}`. -/
theorem C9_structured_injection_witness :
    inject_json (some (Json.obj [("message", Json.str "Hello")])) "" 8082
      = dumpJson (Json.obj (objAssign [("message", Json.str "Hello")]
          "_server" (Json.str (serverValue 8082)))) :=
  ((C9_structured_injection (some (Json.obj [("message", Json.str "Hello")]))
      "" "application/json" 8082 (by decide) (by decide)).2.2.1
    [("message", Json.str "Hello")] rfl).1

/-- Claim C10: `inject` buckets on the lowered, parameter-stripped main
content type, testing `html`, then `json`, then `text`, so the earlier bucket
always wins when several keywords occur: a main type containing `html` is
handled by the markup rule even when it also contains `text` (e.g.
`text/html`), and one containing `json` but not `html` is handled by the
structured rule, not the plain rule (e.g. `text/json`). -/
theorem C10_bucket_dispatch_order (parsed : Option Json) (body ct : String)
    (p : Nat) :
    (containsStr (get_content_type_main ct) "html" = true →
      inject parsed body ct p = inject_html body p) ∧
    (containsStr (get_content_type_main ct) "html" = false →
      containsStr (get_content_type_main ct) "json" = true →
      inject parsed body ct p = inject_json parsed body p) ∧
    (containsStr (get_content_type_main ct) "html" = false →
      containsStr (get_content_type_main ct) "json" = false →
      containsStr (get_content_type_main ct) "text" = true →
      inject parsed body ct p = inject_text body p) ∧
    (containsStr (get_content_type_main ct) "html" = false →
      containsStr (get_content_type_main ct) "json" = false →
      containsStr (get_content_type_main ct) "text" = false →
      inject parsed body ct p = body) ∧
    (get_content_type_main "TEXT/HTML; charset=utf-8" = "text/html") ∧
    (containsStr "text/html" "html" = true ∧
      containsStr "text/html" "text" = true ∧
      inject parsed body "text/html" p = inject_html body p) ∧
    (containsStr "text/json" "json" = true ∧
      containsStr "text/json" "text" = true ∧
      containsStr "text/json" "html" = false ∧
      inject parsed body "text/json" p = inject_json parsed body p) := by
  refine ⟨fun h1 => by simp [inject, h1],
    fun h1 h2 => by simp [inject, h1, h2],
    fun h1 h2 h3 => by simp [inject, h1, h2, h3],
    fun h1 h2 h3 => by simp [inject, h1, h2, h3],
    by decide, ⟨by decide, by decide, rfl⟩, ⟨by decide, by decide, by decide, rfl⟩⟩

/-- Witness for claim C10: `text/json` is dispatched to the structured rule
even though it also contains `text`. -/
theorem C10_bucket_dispatch_order_witness :
    inject none "x" "text/json" 80 = inject_json none "x" 80 :=
  (C10_bucket_dispatch_order none "x" "text/json" 80).2.1 (by decide) (by decide)

end LB
